import Mathlib

/-!
Shallow embedding of the STM32 UART DFU protocol engine
(`stm32_uart_dfu/stm32uartdfu.py`): checksum computation, frame traces,
retry policy, chunked read/write transfers, and erase sector-range lookup.

Wire activity is modelled as a list of `LinkEvent`s; serial-port settings
as a `PortSettings` record; machine bytes as `Nat` with explicit masking.
-/

namespace Stm32UartDfu

/-- One observable action on the serial link. -/
inductive LinkEvent where
  | send (bytes : List Nat)
  | recv (amount : Nat)
  | awaitAck
  | flush
  | applySettings (baudrate : Nat) (parity : Nat) (timeout : Nat)
  deriving DecidableEq, Repr

/-- Serial-port settings owned by the driver: baud rate, parity, byte
timeout (`_DEFAULT_PARAMETERS`: 115200, even parity, 1 second). -/
structure PortSettings where
  baudrate : Nat
  parity : Nat
  timeout : Nat
  deriving DecidableEq, Repr

/-- The default timeout entry of `_DEFAULT_PARAMETERS` (seconds). -/
def defaultTimeout : Nat := 1

/-- Bound-retry attempt count `_RETRIES`. -/
def RETRIES : Nat := 3

/-- Python big-endian `to_bytes`: byte list of length `n` for value `v`.
(For `v ≥ 256^n` Python raises `OverflowError`; here the value is
truncated — all call sites stay in range.) -/
def toBytesBE : Nat → Nat → List Nat
  | 0, _ => []
  | n + 1, v => toBytesBE n (v / 256) ++ [v % 256]

/-- Checksum of a byte sequence (`_checksum`, sequence path):
`0xff & reduce(xor, data, init)`. -/
def checksum (data : List Nat) (init : Nat) : Nat :=
  0xff &&& data.foldl (fun a b => a ^^^ b) init

/-- Checksum of a scalar (`_checksum`, scalar path): `0xff & (0xff - data)`,
with the signed subtraction and mask modelled on `Int`. -/
def checksumScalar (data : Nat) : Nat :=
  ((((0xff : Int) - (data : Int)) % 256).toNat)

/-- All bytes placed on the link by a trace, in order. -/
def sentBytes : List LinkEvent → List Nat
  | [] => []
  | .send bs :: rest => bs ++ sentBytes rest
  | _ :: rest => sentBytes rest

/-- Trace of `_send_command(command)`: write `[command, checksum(command)]` then
wait for ACK. -/
def sendCommandTrace (command : Nat) : List LinkEvent :=
  [.send (toBytesBE 1 command ++ [checksumScalar command]), .awaitAck]

/-- Trace of `_set_address(address)`: write the 4 big-endian address bytes and
their sequence checksum, then wait for ACK. -/
def setAddressTrace (address : Nat) : List LinkEvent :=
  [.send (toBytesBE 4 address ++ [checksum (toBytesBE 4 address) 0]),
   .awaitAck]

/-- Trace of `_write_memory_chunk(address, data)`: `write memory` command (0x31),
address frame, then `[len(data)-1]`, the raw data, the combined checksum
`_checksum(data, len(data)-1)`, and one ACK wait. -/
def writeMemoryChunkTrace (address : Nat) (data : List Nat) : List LinkEvent :=
  sendCommandTrace 0x31 ++ setAddressTrace address ++
    [.send (toBytesBE 1 (data.length - 1)),
     .send data,
     .send [checksum data (data.length - 1)],
     .awaitAck]

/-- Protocol-level failures: `exceptions.py`, the `AttributeError`s raised
by `erase`, and the Python `TypeError`/`IndexError` that the falsy-address
and falsy-size defaulting of `read` raises when the memory map is `None`
respectively empty. -/
inductive DfuError where
  | ack (response : List Nat)
  | io (expected : Nat) (actual : Nat)
  | retryExhausted (action : String) (cause : Option DfuError)
  | noMemoryMap
  | boundaryNotFound
  | typeError
  | indexError
  deriving Repr

/-- The `_retry(retry_num, action, exc_call)` wrapper: run the wrapped
primitive up to `retry_num` times; on each `DfuException` perform one
link flush (`_serial_flush`, the `exc_call` every wrapped primitive
passes) and remember the error; once attempts are exhausted raise a
retry-exhausted error chaining the last caught cause. `attempt i` is
the outcome of the i-th call of the wrapped primitive; the first
argument counts down the remaining loop iterations of
`for current_retry in range(retry_num)`; the returned `Nat` counts the
flushes performed. -/
def retryGo (action : String) (attempt : Nat → Except DfuError α) :
    Nat → Nat → Option DfuError → Nat → Except DfuError α × Nat
  | 0, _, last, flushes => (.error (.retryExhausted action last), flushes)
  | remaining + 1, i, _last, flushes =>
    match attempt i with
    | .ok a => (.ok a, flushes)
    | .error e => retryGo action attempt remaining (i + 1) (some e) (flushes + 1)

/-- Entry point of the retry wrapper: `retry_num` iterations remain,
starting at attempt 0 with no caught error and no flushes performed. -/
def retryRun (retryNum : Nat) (action : String)
    (attempt : Nat → Except DfuError α) : Except DfuError α × Nat :=
  retryGo action attempt retryNum 0 none 0

/-- The chunking loop shared by `read` and `write`:
`while size_remain: part_size = min(256, size_remain);
offset = address + size - size_remain; ...; size_remain -= part_size`.
Returns the (offset, part_size) pairs in emission order. -/
def chunksGo (address size : Nat) : Nat → List (Nat × Nat)
  | remain =>
    if _h : remain = 0 then []
    else
      let part := min 256 remain
      (address + size - remain, part) :: chunksGo address size (remain - part)
termination_by remain => remain
decreasing_by simp_wf; omega

/-- Chunk sequence of the `read` loop, for the address and size values as
they stand after the falsy-argument defaulting at the top of `read`
(see `readResolve` below for that resolution step). -/
def readChunks (address size : Nat) : List (Nat × Nat) :=
  chunksGo address size size

/-- The `write(address, data)` loop additionally slices
`chunk = data[offset - address : offset - address + part_size]`. -/
def writeChunksGo (address : Nat) (data : List Nat) : Nat → List (Nat × List Nat)
  | remain =>
    if _h : remain = 0 then []
    else
      let part := min 256 remain
      let offset := address + data.length - remain
      (offset, (data.drop (offset - address)).take part) ::
        writeChunksGo address data (remain - part)
termination_by remain => remain
decreasing_by simp_wf; omega

/-- Chunk sequence of `write(address, data)`. -/
def writeChunks (address : Nat) (data : List Nat) : List (Nat × List Nat) :=
  writeChunksGo address data data.length

/-- Device model honouring the write-memory command: storing `chunk` at
`offset` updates exactly the bytes of `[offset, offset + len(chunk))`. -/
def deviceWriteChunk (mem : Nat → Nat) (offset : Nat) (chunk : List Nat) :
    Nat → Nat :=
  fun a => if offset ≤ a ∧ a < offset + chunk.length then chunk.getD (a - offset) 0 else mem a

/-- Effect of `write(address, data)` on the device model: each chunk of the
write loop is stored by the device in order. -/
def dfuWrite (mem : Nat → Nat) (address : Nat) (data : List Nat) : Nat → Nat :=
  (writeChunks address data).foldl (fun m c => deviceWriteChunk m c.1 c.2) mem

/-- Result of the `read` loop against the device model, for the resolved
address and size (post `readResolve`): each
`_read_memory_chunk(offset, part_size)` returns the device bytes at
`[offset, offset + part_size)`, accumulated in order. -/
def dfuRead (mem : Nat → Nat) (address size : Nat) : List Nat :=
  ((readChunks address size).map (fun c => (List.range' c.1 c.2).map mem)).flatten

/-- One memory-map record (an address and a size, already
parsed to integers as `int(sector[...], 0)` does). -/
structure Sector where
  address : Nat
  size : Nat
  deriving DecidableEq, Repr

/-- Python falsiness of an optional integer argument (`not x`):
`None` and `0` are falsy. -/
def pyFalsy : Option Nat → Bool
  | none => true
  | some v => v = 0

/-- Entry defaulting of `read` for the address argument:
`address = address if address else int(memory_map[0][...], 0)`.
A falsy (absent or zero) address is replaced by the base address of the
first memory-map sector; subscripting a `None` map raises `TypeError`,
an empty map `IndexError`. -/
def resolveAddress (address : Option Nat) (memoryMap : Option (List Sector)) :
    Except DfuError Nat :=
  if pyFalsy address then
    match memoryMap with
    | none => .error .typeError
    | some [] => .error .indexError
    | some (s :: _) => .ok s.address
  else .ok (address.getD 0)

/-- Entry defaulting of `read` for the size argument (`if not size:`):
a falsy size becomes the distance from the resolved address to the end
of the last memory-map sector (`memory_map[-1]`); with no map this
subscript raises `TypeError`, with an empty map `IndexError`.
(Nat subtraction truncates where the Python expression would go
negative for an address beyond the map.) -/
def resolveSize (a : Nat) (size : Option Nat) (memoryMap : Option (List Sector)) :
    Except DfuError Nat :=
  if pyFalsy size then
    match memoryMap with
    | none => .error .typeError
    | some [] => .error .indexError
    | some (s0 :: rest) =>
      .ok (((s0 :: rest).getLast (List.cons_ne_nil s0 rest)).address +
        ((s0 :: rest).getLast (List.cons_ne_nil s0 rest)).size - a)
  else .ok (size.getD 0)

/-- Resolution step at the top of `read(address, size, memory_map)`:
the address defaulting, then the size defaulting. -/
def readResolve (address size : Option Nat) (memoryMap : Option (List Sector)) :
    Except DfuError (Nat × Nat) :=
  match resolveAddress address memoryMap with
  | .error e => .error e
  | .ok a =>
    match resolveSize a size memoryMap with
    | .error e => .error e
    | .ok s => .ok (a, s)

/-- Chunk sequence of a full `read(address, size, memory_map)` call:
resolve the falsy-argument defaulting, then run the chunk loop on the
resolved address and size. -/
def readOp (address size : Option Nat) (memoryMap : Option (List Sector)) :
    Except DfuError (List (Nat × Nat)) :=
  match readResolve address size memoryMap with
  | .error e => .error e
  | .ok as => .ok (readChunks as.1 as.2)

/-- Result of a full `read(address, size, memory_map)` call against the
device model: the resolution step, then the chunked device read. -/
def dfuReadOp (mem : Nat → Nat) (address size : Option Nat)
    (memoryMap : Option (List Sector)) : Except DfuError (List Nat) :=
  match readResolve address size memoryMap with
  | .error e => .error e
  | .ok as => .ok (dfuRead mem as.1 as.2)

/-- Start lookup of `erase`: index of the first sector with
`sector.address <= address < sector.address + sector.size`. -/
def findStartIdx (memoryMap : List Sector) (address : Nat) : Option Nat :=
  memoryMap.findIdx?
    (fun s => decide (s.address ≤ address ∧ address < s.address + s.size))

/-- End lookup of `erase`: index of the first sector with
`sector.address < address + size <= sector.address + sector.size`. -/
def findEndIdx (memoryMap : List Sector) (address size : Nat) : Option Nat :=
  memoryMap.findIdx?
    (fun s => decide (s.address < address + size ∧ address + size ≤ s.address + s.size))

/-- Parameter-frame computation of `erase(address, size, memory_map)`:
mass-erase sentinel when both `size` and `address` are absent/falsy,
otherwise the sector-range parameters from the boundary lookup.
(`(end - start)` and the sector indices use 2-byte big-endian encoding;
Nat subtraction truncates where Python would raise on a negative count.) -/
def eraseParams (address size : Option Nat) (memoryMap : Option (List Sector)) :
    Except DfuError (List Nat) :=
  if pyFalsy size && pyFalsy address then
    .ok ([0xff, 0xff] ++ [checksum [0xff, 0xff] 0])
  else
    match memoryMap with
    | none => .error .noMemoryMap
    | some m =>
      let a := address.getD 0
      let s := size.getD 0
      match findStartIdx m a, findEndIdx m a s with
      | some start, some stop =>
        let sectors := (List.range' start (stop + 1 - start)).map (toBytesBE 2)
        let body := toBytesBE 2 (stop - start) ++ sectors.flatten
        .ok (body ++ [checksum body 0])
      | _, _ => .error .boundaryNotFound

/-- Trace of `_perform_erase(parameters)`: write the parameter bytes, re-apply the
port settings with the timeout widened to `5 * 60` seconds, wait for the
erase ACK, and in a `finally` block re-apply the settings with the
default timeout — the same events on both the ACK-success and the
ACK-failure path. -/
def performEraseTrace (ports : PortSettings) (params : List Nat)
    (ackOk : Bool) : Except DfuError Unit × List LinkEvent :=
  ((if ackOk then .ok () else .error (.ack [])),
   [.send params,
    .applySettings ports.baudrate ports.parity (5 * 60),
    .awaitAck,
    .applySettings ports.baudrate ports.parity defaultTimeout])

/-- Trace of `erase(address, size, memory_map)`: compute the parameter frame
(raising before any transmission on failure), then send the
`extended erase` command (0x44) and run `_perform_erase`. -/
def eraseTrace (address size : Option Nat) (memoryMap : Option (List Sector))
    (ports : PortSettings) (ackOk : Bool) :
    Except DfuError Unit × List LinkEvent :=
  match eraseParams address size memoryMap with
  | .error e => (.error e, [])
  | .ok params =>
    let r := performEraseTrace ports params ackOk
    (r.1, sendCommandTrace 0x44 ++ r.2)

/-- Fold `applySettings` events over the port settings: the settings the
link is left with after a trace. -/
def applyEvents (ports : PortSettings) : List LinkEvent → PortSettings
  | [] => ports
  | .applySettings b p t :: rest => applyEvents ⟨b, p, t⟩ rest
  | _ :: rest => applyEvents ports rest

/-- The wire transaction of the `id` property when the cache misses:
`get id` command (0x02), read 1 length byte, read `lenByte + 1` id
bytes, trailing ACK. With an honest device the returned id is the
device `pid` byte string (`len(pid) = lenByte + 1`). -/
def getIdQuery (devPid : List Nat) : List Nat × Option (List Nat) × List LinkEvent :=
  (devPid, some devPid,
   sendCommandTrace 0x02 ++ [.recv 1, .recv ((devPid.length - 1) + 1), .awaitAck])

/-- The `id` property: `if self._id: return self._id` (Python truthiness:
`None` and empty bytes both re-query), else perform the wire query and
memoize the result. Returns (result, new cache, link events). -/
def getIdOp (cache : Option (List Nat)) (devPid : List Nat) :
    List Nat × Option (List Nat) × List LinkEvent :=
  match cache with
  | some l => if l.isEmpty then getIdQuery devPid else (l, some l, [])
  | none => getIdQuery devPid

/-- The memory map of the worked ranged-erase example:
`[{0x0800_0000, 0x4000}, {0x0800_4000, 0x4000}, {0x0800_8000, 0x8000}]`. -/
def exampleMemoryMap : List Sector :=
  [⟨0x08000000, 0x4000⟩, ⟨0x08004000, 0x4000⟩, ⟨0x08008000, 0x8000⟩]

/-- Default port settings from `_DEFAULT_PARAMETERS` (parity E as its
character code 69). -/
def defaultSettings : PortSettings := ⟨115200, 69, defaultTimeout⟩

/- ---------------------------------------------------------------------
Helper lemmas
--------------------------------------------------------------------- -/

theorem chunksGo_eq (address size remain : Nat) :
    chunksGo address size remain =
      if remain = 0 then []
      else
        (address + size - remain, min 256 remain) ::
          chunksGo address size (remain - min 256 remain) := by
  rw [chunksGo]
  by_cases h : remain = 0 <;> simp [h]

theorem writeChunksGo_eq (address : Nat) (data : List Nat) (remain : Nat) :
    writeChunksGo address data remain =
      if remain = 0 then []
      else
        (address + data.length - remain,
         (data.drop (address + data.length - remain - address)).take (min 256 remain)) ::
          writeChunksGo address data (remain - min 256 remain) := by
  rw [writeChunksGo]
  by_cases h : remain = 0 <;> simp [h]

theorem chunksGo_ne_nil (address size remain : Nat) (h : remain ≠ 0) :
    chunksGo address size remain ≠ [] := by
  rw [chunksGo_eq, if_neg h]
  exact List.cons_ne_nil _ _

theorem chunksGo_flatten (address size : Nat) :
    ∀ remain, remain ≤ size →
      ((chunksGo address size remain).map (fun c => List.range' c.1 c.2)).flatten =
        List.range' (address + size - remain) remain := by
  intro remain
  induction remain using Nat.strong_induction_on with
  | _ remain ih =>
    intro hle
    rw [chunksGo_eq]
    by_cases h0 : remain = 0
    · simp [h0]
    · rw [if_neg h0, List.map_cons, List.flatten_cons,
        ih (remain - min 256 remain) (by omega) (by omega)]
      have h1 : address + size - (remain - min 256 remain) =
          (address + size - remain) + min 256 remain := by omega
      rw [h1, List.range'_append_1]
      congr 1
      omega

theorem chunksGo_dropLast (address size : Nat) :
    ∀ remain, ∀ c ∈ (chunksGo address size remain).dropLast, c.2 = 256 := by
  intro remain
  induction remain using Nat.strong_induction_on with
  | _ remain ih =>
    intro c hc
    rw [chunksGo_eq] at hc
    by_cases h0 : remain = 0
    · rw [if_pos h0] at hc
      simp at hc
    · rw [if_neg h0] at hc
      by_cases h256 : remain - min 256 remain = 0
      · rw [chunksGo_eq, if_pos h256] at hc
        simp at hc
      · rw [List.dropLast_cons_of_ne_nil
          (chunksGo_ne_nil address size _ h256)] at hc
        rcases List.mem_cons.mp hc with hh | ht
        · rw [hh]
          show min 256 remain = 256
          omega
        · exact ih (remain - min 256 remain) (by omega) c ht

theorem chunksGo_getLast (address size : Nat) :
    ∀ remain, remain ≠ 0 →
      (chunksGo address size remain).getLast?.map Prod.snd =
        some (if remain % 256 = 0 then 256 else remain % 256) := by
  intro remain
  induction remain using Nat.strong_induction_on with
  | _ remain ih =>
    intro h0
    rw [chunksGo_eq, if_neg h0]
    by_cases h256 : remain - min 256 remain = 0
    · have hmin : min 256 remain = remain := by omega
      rw [chunksGo_eq, if_pos h256, hmin]
      rw [List.getLast?_singleton, Option.map_some']
      have hout : (if remain % 256 = 0 then 256 else remain % 256) = remain := by
        split_ifs <;> omega
      rw [hout]
    · have htail := chunksGo_ne_nil address size (remain - min 256 remain) h256
      obtain ⟨b, L, hbl⟩ := List.exists_cons_of_ne_nil htail
      rw [hbl, List.getLast?_cons_cons, ← hbl,
        ih (remain - min 256 remain) (by omega) h256]
      have hmod : (remain - min 256 remain) % 256 = remain % 256 := by omega
      rw [hmod]

theorem writeChunksGo_lengths (address : Nat) (data : List Nat) :
    ∀ remain, remain ≤ data.length →
      (writeChunksGo address data remain).map (fun c => (c.1, c.2.length)) =
        chunksGo address data.length remain := by
  intro remain
  induction remain using Nat.strong_induction_on with
  | _ remain ih =>
    intro hle
    rw [writeChunksGo_eq, chunksGo_eq]
    by_cases h0 : remain = 0
    · simp [h0]
    · rw [if_neg h0, if_neg h0, List.map_cons,
        ih (remain - min 256 remain) (by omega) (by omega)]
      congr 1
      show (_, _) = (_, _)
      congr 1
      rw [List.length_take, List.length_drop]
      omega

theorem writeChunksGo_foldl (address : Nat) (data : List Nat) :
    ∀ remain, remain ≤ data.length → ∀ (mem : Nat → Nat) (a : Nat),
      ((writeChunksGo address data remain).foldl
          (fun m c => deviceWriteChunk m c.1 c.2) mem) a =
        if address + data.length - remain ≤ a ∧ a < address + data.length
        then data.getD (a - address) 0 else mem a := by
  intro remain
  induction remain using Nat.strong_induction_on with
  | _ remain ih =>
    intro hle mem a
    rw [writeChunksGo_eq]
    by_cases h0 : remain = 0
    · rw [if_pos h0]
      simp only [List.foldl_nil]
      rw [if_neg (by omega)]
    · rw [if_neg h0, List.foldl_cons,
        ih (remain - min 256 remain) (by omega) (by omega)]
      have hchlen :
          ((data.drop (address + data.length - remain - address)).take
            (min 256 remain)).length = min 256 remain := by
        rw [List.length_take, List.length_drop]
        omega
      simp only [deviceWriteChunk, hchlen]
      split_ifs <;> first
        | rfl
        | omega
        | (rw [List.getD_eq_getElem?_getD, List.getD_eq_getElem?_getD,
            List.getElem?_take, if_pos (by omega), List.getElem?_drop]
           congr 2
           omega)

theorem dfuRead_eq_map (mem : Nat → Nat) (address size : Nat) :
    dfuRead mem address size = (List.range' address size).map mem := by
  unfold dfuRead
  have h1 : (readChunks address size).map
        (fun c => (List.range' c.1 c.2).map mem) =
      ((readChunks address size).map (fun c => List.range' c.1 c.2)).map
        (List.map mem) := by
    rw [List.map_map]
    rfl
  rw [h1, ← List.map_flatten]
  have h2 := chunksGo_flatten address size size le_rfl
  rw [Nat.add_sub_cancel] at h2
  unfold readChunks
  rw [h2]

theorem map_getD_range' (data : List Nat) :
    ∀ start : Nat,
      (List.range' start data.length).map (fun a => data.getD (a - start) 0) =
        data := by
  induction data with
  | nil => intro start; rfl
  | cons d ds ih =>
    intro start
    rw [List.length_cons, List.range'_succ, List.map_cons]
    congr 1
    · rw [Nat.sub_self, List.getD_cons_zero]
    · have hstep : ∀ a ∈ List.range' (start + 1) ds.length,
          (d :: ds).getD (a - start) 0 = ds.getD (a - (start + 1)) 0 := by
        intro a ha
        rw [List.mem_range'_1] at ha
        have h1 : a - start = (a - (start + 1)) + 1 := by omega
        rw [h1, List.getD_cons_succ]
      rw [List.map_congr_left hstep, ih (start + 1)]

theorem dfuRead_dfuWrite (mem : Nat → Nat) (address : Nat) (data : List Nat) :
    dfuRead (dfuWrite mem address data) address data.length = data := by
  rw [dfuRead_eq_map]
  have hw : ∀ a ∈ List.range' address data.length,
      dfuWrite mem address data a = data.getD (a - address) 0 := by
    intro a ha
    rw [List.mem_range'_1] at ha
    unfold dfuWrite writeChunks
    rw [writeChunksGo_foldl address data data.length le_rfl mem a,
      if_pos (by omega)]
  rw [List.map_congr_left hw, map_getD_range']

theorem foldl_xor_shift (l : List Nat) :
    ∀ i a : Nat,
      l.foldl (fun x y => x ^^^ y) (i ^^^ a) =
        (l.foldl (fun x y => x ^^^ y) i) ^^^ a := by
  induction l with
  | nil => intro i a; rfl
  | cons b t ih =>
    intro i a
    simp only [List.foldl_cons]
    have hx : i ^^^ a ^^^ b = i ^^^ b ^^^ a := by
      rw [Nat.xor_assoc, Nat.xor_assoc, Nat.xor_comm a b]
    rw [hx, ih (i ^^^ b) a]

theorem foldl_xor_reverse (l : List Nat) (i : Nat) :
    l.reverse.foldl (fun x y => x ^^^ y) i = l.foldl (fun x y => x ^^^ y) i := by
  induction l generalizing i with
  | nil => rfl
  | cons b t ih =>
    rw [List.reverse_cons, List.foldl_append, List.foldl_cons, ih]
    exact (foldl_xor_shift t i b).symm

/- ---------------------------------------------------------------------
Claim theorems
--------------------------------------------------------------------- -/

/-- C7: the XOR-fold checksum of a byte sequence is invariant under
reversing the sequence (for any seed), and the pinned vectors hold:
the scalar path on `0x02` yields `0xFF - 0x02 = 0xFD`, and the sequence
path on `[0x08, 0x00, 0x00, 0x00]` with seed 0 yields `0x08`. -/
theorem c7_checksum_reverse_and_vectors :
    (∀ (s : List Nat) (i : Nat), checksum s.reverse i = checksum s i) ∧
    checksumScalar 0x02 = 0xfd ∧
    checksum [0x08, 0x00, 0x00, 0x00] 0 = 0x08 := by
  refine ⟨fun s i => ?_, by decide, by decide⟩
  unfold checksum
  rw [foldl_xor_reverse]

/-- C5: with no address and no size, `erase` computes the mass-erase
parameter frame `[0xFF, 0xFF, checksum([0xFF, 0xFF])] = FF FF 00`, and
that exact frame is what is transmitted right after the
`extended erase` command. -/
theorem c5_mass_erase_parameters :
    ∀ (memoryMap : Option (List Sector)) (ports : PortSettings) (ackOk : Bool),
      eraseParams none none memoryMap = .ok [0xff, 0xff, 0x00] ∧
      (eraseTrace none none memoryMap ports ackOk).2 =
        sendCommandTrace 0x44 ++
          (performEraseTrace ports [0xff, 0xff, 0x00] ackOk).2 := by
  intro memoryMap ports ackOk
  exact ⟨rfl, rfl⟩

/-- C4 counterexample: on the worked example the claimed resolution
`start = 0 ∧ end = 1` is false — the end lookup finds no sector, since
`0x0800_0040 + 76543 = 0x0801_2B3F` exceeds the mapped region. -/
theorem c4_boundary_lookup_counterexample :
    ¬(findStartIdx exampleMemoryMap 0x08000040 = some 0 ∧
      findEndIdx exampleMemoryMap 0x08000040 76543 = some 1) := by
  decide

/-- C4 amended: on the worked example the start lookup resolves sector 0,
but the end lookup (rule `addr < address + size ≤ addr + len`) matches no
sector, so `erase` fails with the boundary-lookup error and transmits
nothing. -/
theorem c4_boundary_lookup_amended :
    findStartIdx exampleMemoryMap 0x08000040 = some 0 ∧
    findEndIdx exampleMemoryMap 0x08000040 76543 = none ∧
    ∀ (ports : PortSettings) (ackOk : Bool),
      eraseTrace (some 0x08000040) (some 76543) (some exampleMemoryMap)
          ports ackOk =
        (.error .boundaryNotFound, []) := by
  refine ⟨by decide, by decide, fun ports ackOk => rfl⟩

/-- C3: if a retry-wrapped primitive fails on all `_RETRIES = 3`
consecutive attempts, the wrapper fails with a retry-exhausted error
chaining the last underlying cause and performs exactly 3 link flushes,
one per failed attempt. -/
theorem c3_retry_exhausted (action : String)
    (attempt : Nat → Except DfuError α) (errs : Nat → DfuError)
    (h : ∀ i < RETRIES, attempt i = .error (errs i)) :
    retryRun RETRIES action attempt =
      (.error (.retryExhausted action (some (errs 2))), 3) := by
  have h0 := h 0 (by decide)
  have h1 := h 1 (by decide)
  have h2 := h 2 (by decide)
  simp [retryRun, RETRIES, retryGo, h0, h1, h2]

/-- C3 witness: a primitive that always NACKs exhausts the 3 attempts,
raises the retry-exhausted error chaining the last NACK, and flushes
exactly 3 times. -/
theorem c3_retry_exhausted_witness :
    (∀ i < RETRIES,
      (fun _ => (.error (.ack [0x1f]) : Except DfuError (List Nat))) i =
        .error (.ack [0x1f])) ∧
    retryRun RETRIES "read memory"
        (fun _ => (.error (.ack [0x1f]) : Except DfuError (List Nat))) =
      (.error (.retryExhausted "read memory" (some (.ack [0x1f]))), 3) :=
  ⟨fun _ _ => rfl,
   c3_retry_exhausted "read memory" _ (fun _ => .ack [0x1f]) (fun _ _ => rfl)⟩

/-- C1: for a non-empty chunk of at most 256 bytes, the events after the
write-memory command and address frames are exactly: one byte
`chunk_len - 1`, the raw chunk bytes, one checksum byte equal to the
XOR-fold of the chunk seeded with `chunk_len - 1` masked to 8 bits, and
a single ACK wait — and the bytes those events place on the link are
their concatenation. -/
theorem c1_write_chunk_wire_format (address : Nat) (data : List Nat)
    (h1 : 0 < data.length) (h2 : data.length ≤ 256) :
    writeMemoryChunkTrace address data =
      sendCommandTrace 0x31 ++ setAddressTrace address ++
        [.send [data.length - 1], .send data,
         .send [0xff &&& data.foldl (fun a b => a ^^^ b) (data.length - 1)],
         .awaitAck] ∧
    sentBytes
        [.send [data.length - 1], .send data,
         .send [0xff &&& data.foldl (fun a b => a ^^^ b) (data.length - 1)],
         .awaitAck] =
      [data.length - 1] ++ data ++
        [0xff &&& data.foldl (fun a b => a ^^^ b) (data.length - 1)] := by
  constructor
  · have hb : toBytesBE 1 (data.length - 1) = [data.length - 1] := by
      simp only [toBytesBE, List.nil_append]
      congr 1
      omega
    simp [writeMemoryChunkTrace, checksum, hb]
  · simp [sentBytes]

/-- C1 witness: chunk `[1, 2, 3]` at address `0x0800_0000` produces the
length byte 2, the raw bytes, the checksum byte `2 ^^^ 1 ^^^ 2 ^^^ 3 = 2`
and one ACK wait. -/
theorem c1_write_chunk_wire_format_witness :
    0 < ([0x01, 0x02, 0x03] : List Nat).length ∧
    ([0x01, 0x02, 0x03] : List Nat).length ≤ 256 ∧
    (writeMemoryChunkTrace 0x08000000 [0x01, 0x02, 0x03] =
      sendCommandTrace 0x31 ++ setAddressTrace 0x08000000 ++
        [.send [2], .send [0x01, 0x02, 0x03], .send [2], .awaitAck] ∧
     sentBytes [.send [2], .send [0x01, 0x02, 0x03], .send [2], .awaitAck] =
      [2] ++ [0x01, 0x02, 0x03] ++ [2]) :=
  ⟨by decide, by decide,
   c1_write_chunk_wire_format 0x08000000 [0x01, 0x02, 0x03]
     (by decide) (by decide)⟩

/-- C6: around the erase ACK wait the settings applied to the port first
widen the timeout to `5 * 60` seconds and afterwards — on the success
and the failure path alike — restore the default timeout, leaving baud
rate and parity untouched; and every erase call either transmits
nothing (parameter-computation failure) or ends in exactly this
`_perform_erase` event sequence. -/
theorem c6_erase_timeout_widened_and_restored (ports : PortSettings)
    (params : List Nat) (ackOk : Bool) :
    (∃ pre post,
      (performEraseTrace ports params ackOk).2 = pre ++ .awaitAck :: post ∧
      LinkEvent.awaitAck ∉ pre ∧ LinkEvent.awaitAck ∉ post ∧
      applyEvents ports pre = ⟨ports.baudrate, ports.parity, 5 * 60⟩ ∧
      applyEvents ports (pre ++ .awaitAck :: post) =
        ⟨ports.baudrate, ports.parity, defaultTimeout⟩) ∧
    ∀ (address size : Option Nat) (memoryMap : Option (List Sector)),
      (eraseTrace address size memoryMap ports ackOk).2 = [] ∨
      ∃ params2,
        (eraseTrace address size memoryMap ports ackOk).2 =
          sendCommandTrace 0x44 ++ (performEraseTrace ports params2 ackOk).2 := by
  constructor
  · refine ⟨[.send params, .applySettings ports.baudrate ports.parity (5 * 60)],
      [.applySettings ports.baudrate ports.parity defaultTimeout],
      rfl, by simp, by simp, rfl, rfl⟩
  · intro address size memoryMap
    cases h : eraseParams address size memoryMap with
    | error e => exact Or.inl (by simp [eraseTrace, h])
    | ok p => exact Or.inr ⟨p, by simp [eraseTrace, h]⟩

/-- C9: starting from an empty cache, a second access of the `id`
property returns the same identifier as the first and performs no link
events: the identifier is memoized by the first successful query. -/
theorem c9_id_memoized (devPid devPid2 : List Nat) (h : devPid ≠ []) :
    (getIdOp (getIdOp none devPid).2.1 devPid2).1 = (getIdOp none devPid).1 ∧
    (getIdOp (getIdOp none devPid).2.1 devPid2).2.2 = [] := by
  have hne : devPid.isEmpty = false := by
    cases devPid with
    | nil => exact absurd rfl h
    | cons a t => rfl
  constructor <;> simp [getIdOp, getIdQuery, hne]

/-- C9 witness: with device id `[0x04, 0x13]` the second access returns
the memoized id and emits no events. -/
theorem c9_id_memoized_witness :
    ([0x04, 0x13] : List Nat) ≠ [] ∧
    ((getIdOp (getIdOp none [0x04, 0x13]).2.1 [0x09]).1 =
        (getIdOp none [0x04, 0x13]).1 ∧
     (getIdOp (getIdOp none [0x04, 0x13]).2.1 [0x09]).2.2 = []) :=
  ⟨by decide, c9_id_memoized [0x04, 0x13] [0x09] (by decide)⟩

/-- C2 counterexample: at the in-scope input `address = 0` (Python-falsy)
the chunk-cover claim fails on `read`: with a memory map, `read(0, 300)`
defaults the start address to the map base `0x0800_0000`, so its first
chunk offset is not 0 and the chunks do not cover `[0, 300)`; with no
map the defaulting raises `TypeError`. -/
theorem c2_chunk_cover_counterexample :
    readOp (some 0) (some 300) (some exampleMemoryMap) =
      .ok (readChunks 0x08000000 300) ∧
    (readChunks 0x08000000 300).head?.map Prod.fst ≠ some 0 ∧
    readOp (some 0) (some 300) none = .error .typeError := by
  refine ⟨rfl, ?_, rfl⟩
  rw [readChunks, chunksGo_eq, if_neg (by omega : ¬(300 : Nat) = 0)]
  simp

/-- C2 amended: for an explicitly-given nonzero address and `size > 0`
(with `len(data) = size`), `read` resolves to exactly that address and
size for any memory map, and `read` and `write` split the transfer into
the same chunk sequence: the concatenation of the chunk intervals is
exactly `[address, address + size)` (offsets start at `address`,
strictly increasing and contiguous, each target byte covered once),
every chunk before the last has length 256, and the last chunk has
length `size % 256`, or 256 when `256 ∣ size`. -/
theorem c2_chunk_cover (address size : Nat) (data : List Nat)
    (memoryMap : Option (List Sector)) (haddr : address ≠ 0)
    (hlen : data.length = size) (hpos : 0 < size) :
    readOp (some address) (some size) memoryMap =
      .ok (readChunks address size) ∧
    ((readChunks address size).map (fun c => List.range' c.1 c.2)).flatten =
        List.range' address size ∧
    (readChunks address size).head?.map Prod.fst = some address ∧
    (writeChunks address data).map (fun c => (c.1, c.2.length)) =
      readChunks address size ∧
    (∀ c ∈ (readChunks address size).dropLast, c.2 = 256) ∧
    (readChunks address size).getLast?.map Prod.snd =
      some (if size % 256 = 0 then 256 else size % 256) := by
  have ha : pyFalsy (some address) = false := by simp [pyFalsy, haddr]
  have hs : pyFalsy (some size) = false := by
    simp only [pyFalsy, decide_eq_false_iff_not]
    omega
  refine ⟨?_, ?_, ?_, ?_, chunksGo_dropLast address size size,
    chunksGo_getLast address size size (by omega)⟩
  · simp [readOp, readResolve, resolveAddress, resolveSize, ha, hs]
  · have h := chunksGo_flatten address size size le_rfl
    rwa [Nat.add_sub_cancel] at h
  · rw [readChunks, chunksGo_eq, if_neg (by omega : ¬size = 0)]
    simp
  · rw [writeChunks, readChunks, ← hlen]
    exact writeChunksGo_lengths address data data.length le_rfl

/-- C2 witness: a 300-byte transfer at the nonzero address 7 resolves to
(7, 300) and is split into a 256-byte chunk at 7 and a 44-byte chunk at
263 for both read and write, tiling `[7, 307)`. -/
theorem c2_chunk_cover_witness :
    (7 : Nat) ≠ 0 ∧ (List.range 300).length = 300 ∧ 0 < 300 ∧
    readOp (some 7) (some 300) (some exampleMemoryMap) =
      .ok (readChunks 7 300) ∧
    ((readChunks 7 300).map (fun c => List.range' c.1 c.2)).flatten =
      List.range' 7 300 ∧
    (readChunks 7 300).head?.map Prod.fst = some 7 ∧
    (writeChunks 7 (List.range 300)).map (fun c => (c.1, c.2.length)) =
      readChunks 7 300 ∧
    (readChunks 7 300).getLast?.map Prod.snd =
      some (if 300 % 256 = 0 then 256 else 300 % 256) :=
  have h := c2_chunk_cover 7 300 (List.range 300) (some exampleMemoryMap)
    (by decide) (by simp) (by decide)
  ⟨by decide, by simp, by decide, h.1, h.2.1, h.2.2.1, h.2.2.2.1,
   h.2.2.2.2.2⟩

/-- C8 counterexample: at the in-scope input `addr = 0` (Python-falsy)
the round-trip law fails: after writing `[11, 22, 33]` at address 0,
`read(0, 3)` with no memory map raises `TypeError`, and with a memory
map it is redirected to the map base `0x0800_0000` and returns the
unwritten bytes `[0, 0, 0]`, not the written data. -/
theorem c8_write_read_roundtrip_counterexample :
    dfuReadOp (dfuWrite (fun _ => 0) 0 [11, 22, 33]) (some 0) (some 3)
        none = .error .typeError ∧
    dfuReadOp (dfuWrite (fun _ => 0) 0 [11, 22, 33]) (some 0) (some 3)
        (some exampleMemoryMap) = .ok [0, 0, 0] ∧
    ([0, 0, 0] : List Nat) ≠ [11, 22, 33] := by
  have hlen3 : ([11, 22, 33] : List Nat).length = 3 := rfl
  have hread : dfuRead (dfuWrite (fun _ => 0) 0 [11, 22, 33]) 0x08000000 3 =
      [0, 0, 0] := by
    rw [dfuRead_eq_map]
    have hw : ∀ a ∈ List.range' 0x08000000 3,
        dfuWrite (fun _ => 0) 0 [11, 22, 33] a = 0 := by
      intro a ha
      rw [List.mem_range'_1] at ha
      unfold dfuWrite writeChunks
      rw [hlen3, writeChunksGo_foldl 0 [11, 22, 33] 3
          (by rw [hlen3]) (fun _ => 0) a,
        if_neg (by rw [hlen3]; omega)]
    rw [List.map_congr_left hw]
    rfl
  refine ⟨rfl, ?_, by decide⟩
  have hstep : dfuReadOp (dfuWrite (fun _ => 0) 0 [11, 22, 33]) (some 0)
      (some 3) (some exampleMemoryMap) =
      .ok (dfuRead (dfuWrite (fun _ => 0) 0 [11, 22, 33]) 0x08000000 3) := rfl
  rw [hstep, hread]

/-- C8 amended: for a nonzero address and non-empty `data`, against a
device model that honours the wire protocol (each write-memory chunk
stores its bytes at its offset, each read-memory chunk returns the
stored bytes), `write(addr, data)` followed by `read(addr, len(data))`
returns exactly `data` for any memory map. -/
theorem c8_write_read_roundtrip (mem : Nat → Nat) (address : Nat)
    (data : List Nat) (memoryMap : Option (List Sector))
    (haddr : address ≠ 0) (hne : data ≠ []) :
    dfuReadOp (dfuWrite mem address data) (some address)
        (some data.length) memoryMap = .ok data := by
  have ha : pyFalsy (some address) = false := by simp [pyFalsy, haddr]
  have hs : pyFalsy (some data.length) = false := by
    simp [pyFalsy, List.length_eq_zero, hne]
  simp [dfuReadOp, readResolve, resolveAddress, resolveSize, ha, hs,
    dfuRead_dfuWrite]

/-- C8 witness: writing `[11, 22, 33]` at the nonzero address 1000 into
an all-zero memory and reading 3 bytes back returns `[11, 22, 33]`. -/
theorem c8_write_read_roundtrip_witness :
    (1000 : Nat) ≠ 0 ∧ ([11, 22, 33] : List Nat) ≠ [] ∧
    dfuReadOp (dfuWrite (fun _ => 0) 1000 [11, 22, 33]) (some 1000)
        (some ([11, 22, 33] : List Nat).length) (some exampleMemoryMap) =
      .ok [11, 22, 33] :=
  ⟨by decide, by decide,
   c8_write_read_roundtrip (fun _ => 0) 1000 [11, 22, 33]
     (some exampleMemoryMap) (by decide) (by decide)⟩

/-- C10: a ranged erase whose memory map is missing or whose boundary
lookup fails raises before any link event: the returned trace is empty,
so neither the extended-erase command nor a parameter frame is sent. -/
theorem c10_failed_ranged_erase_sends_nothing (address size : Option Nat)
    (memoryMap : Option (List Sector)) (ports : PortSettings) (ackOk : Bool)
    (hranged : (pyFalsy size && pyFalsy address) = false)
    (hfail : memoryMap = none ∨
      ∃ m, memoryMap = some m ∧
        (findStartIdx m (address.getD 0) = none ∨
         findEndIdx m (address.getD 0) (size.getD 0) = none)) :
    ∃ e, eraseTrace address size memoryMap ports ackOk = (.error e, []) := by
  rcases hfail with hmap | ⟨m, hm, hlook⟩
  · exact ⟨.noMemoryMap, by simp [eraseTrace, eraseParams, hranged, hmap]⟩
  · refine ⟨.boundaryNotFound, ?_⟩
    subst hm
    rcases hlook with hs | he
    · simp [eraseTrace, eraseParams, hranged, hs]
    · cases hstart : findStartIdx m (address.getD 0) <;>
        simp [eraseTrace, eraseParams, hranged, hstart, he]

/-- C10 witness: a ranged erase with no memory map fails with an empty
trace. -/
theorem c10_failed_ranged_erase_sends_nothing_witness :
    ((pyFalsy (some 16) && pyFalsy (some 1)) = false) ∧
    ((none : Option (List Sector)) = none ∨
      ∃ m, (none : Option (List Sector)) = some m ∧
        (findStartIdx m ((some 1 : Option Nat).getD 0) = none ∨
         findEndIdx m ((some 1 : Option Nat).getD 0)
           ((some 16 : Option Nat).getD 0) = none)) ∧
    ∃ e, eraseTrace (some 1) (some 16) none defaultSettings true =
      (.error e, []) :=
  ⟨by decide, Or.inl rfl,
   c10_failed_ranged_erase_sends_nothing (some 1) (some 16) none
     defaultSettings true (by decide) (Or.inl rfl)⟩

end Stm32UartDfu
